import Mathlib

/-!
Verification development for the Reticulum-over-D-star serial interface
(`ReticulumOverDstar.py`).  The framing subsystem (HDLC-style escaping and
the byte-at-a-time stream deframer of `read_loop`), the incoming frame
processing (`process_incoming`), and the outgoing path (`process_outgoing`)
are embedded shallowly as executable Lean functions over `List Nat`
byte sequences.
-/

namespace HDLC

/-- Frame delimiter octet, `HDLC.FLAG = 0x7E` in the source. -/
def FLAG : Nat := 0x7E

/-- Escape octet, `HDLC.ESC = 0x7D` in the source. -/
def ESC : Nat := 0x7D

/-- Escape mask, `HDLC.ESC_MASK = 0x20` in the source. -/
def ESC_MASK : Nat := 0x20

/-- Python `bytes.replace` for a single-byte pattern: every occurrence of
`pat` is replaced by the byte sequence `repl`. -/
def replaceByte (pat : Nat) (repl : List Nat) : List Nat → List Nat
  | [] => []
  | b :: rest => (if b = pat then repl else [b]) ++ replaceByte pat repl rest

/-- Embedding of `HDLC.escape`: first replace every `ESC` with
`[ESC, ESC ^ ESC_MASK]`, then every `FLAG` with `[ESC, FLAG ^ ESC_MASK]`
(source lines 22-26). -/
def escape (data : List Nat) : List Nat :=
  replaceByte FLAG [ESC, FLAG ^^^ ESC_MASK] (replaceByte ESC [ESC, ESC ^^^ ESC_MASK] data)

end HDLC

/-- Hardware MTU of the interface, `self.HW_MTU = 700` (source line 73). -/
def HW_MTU : Nat := 700

/-- Idle timeout in milliseconds, `self.timeout = 100` (source line 87),
compared against the time since the last read on source line 199. -/
def timeout_ms : Nat := 100

/-- State of the stream deframer inside `read_loop`: the `in_frame` flag, the
`escape` flag, and the partial frame buffer `data_buffer`
(source lines 168-170). -/
structure DeframerState where
  in_frame : Bool
  escape : Bool
  data_buffer : List Nat
deriving Repr, DecidableEq

/-- Initial deframer state at the top of `read_loop`:
`in_frame = False`, `escape = False`, `data_buffer = b""`. -/
def initState : DeframerState := ⟨false, false, []⟩

/-- The sequential unmasking of an escaped byte (source lines 190-193):
`if byte == FLAG ^ ESC_MASK: byte = FLAG` followed by
`if byte == ESC ^ ESC_MASK: byte = ESC`. -/
def unmaskByte (b : Nat) : Nat :=
  let b1 := if b = HDLC.FLAG ^^^ HDLC.ESC_MASK then HDLC.FLAG else b
  if b1 = HDLC.ESC ^^^ HDLC.ESC_MASK then HDLC.ESC else b1

/-- One byte of the deframer state machine (source lines 178-195).  Returns
the successor state together with `some frame` when this byte completes a
frame (the source then calls `process_incoming` on `data_buffer`). -/
def readStep (s : DeframerState) (byte : Nat) : DeframerState × Option (List Nat) :=
  if s.in_frame = true ∧ byte = HDLC.FLAG then
    ({ s with in_frame := false }, some s.data_buffer)
  else if byte = HDLC.FLAG then
    ({ s with in_frame := true, data_buffer := [] }, none)
  else if s.in_frame = true ∧ s.data_buffer.length < HW_MTU then
    if byte = HDLC.ESC then
      ({ s with escape := true }, none)
    else if s.escape = true then
      ({ s with data_buffer := s.data_buffer ++ [unmaskByte byte], escape := false }, none)
    else
      ({ s with data_buffer := s.data_buffer ++ [byte] }, none)
  else
    (s, none)

/-- Feeding a byte sequence one octet at a time through the deframer,
collecting the completed frames in order. -/
def readRun (s : DeframerState) (input : List Nat) : DeframerState × List (List Nat) :=
  match input with
  | [] => (s, [])
  | b :: rest =>
      let p := readStep s b
      let q := readRun p.1 rest
      (q.1, p.2.toList ++ q.2)

example : readRun initState [0x7E, 0x51, 0x55, 0x4A, 0x44, 0x7E] =
    (⟨false, false, [0x51, 0x55, 0x4A, 0x44]⟩, [[0x51, 0x55, 0x4A, 0x44]]) := by decide

example : readRun initState [0x7E, 0x7D, 0x5E, 0x7E] =
    (⟨false, false, [0x7E]⟩, [[0x7E]]) := by decide

example : HDLC.escape [0x7E, 0x7D, 0x41] = [0x7D, 0x5E, 0x7D, 0x5D, 0x41] := by decide

/-- Modelled from the spec: the printable-safe codec is an external
collaborator (Python `base64`), "assumed correct and used, not
reimplemented".  This is the standard radix-64 alphabet character for a
6-bit value. -/
def b64char (i : Nat) : Nat :=
  if i < 26 then 65 + i
  else if i < 52 then 97 + (i - 26)
  else if i < 62 then 48 + (i - 52)
  else if i = 62 then 43
  else 47

/-- Modelled from the spec: inverse alphabet lookup of the printable-safe
codec; `none` on a character outside the radix-64 alphabet. -/
def b64index (c : Nat) : Option Nat :=
  if 65 ≤ c ∧ c ≤ 90 then some (c - 65)
  else if 97 ≤ c ∧ c ≤ 122 then some (26 + (c - 97))
  else if 48 ≤ c ∧ c ≤ 57 then some (52 + (c - 48))
  else if c = 43 then some 62
  else if c = 47 then some 63
  else none

/-- Modelled from the spec: `encode(bytes) -> printable_string`, standard
radix-64 encoding with `=` (61) padding, as produced by `base64.b64encode`. -/
def b64encode : List Nat → List Nat
  | [] => []
  | [a] => [b64char (a / 4), b64char (a % 4 * 16), 61, 61]
  | [a, b] => [b64char (a / 4), b64char (a % 4 * 16 + b / 16), b64char (b % 16 * 4), 61]
  | a :: b :: c :: rest =>
      [b64char (a / 4), b64char (a % 4 * 16 + b / 16), b64char (b % 16 * 4 + c / 64),
        b64char (c % 64)] ++ b64encode rest

/-- Modelled from the spec: `decode(printable_string) -> Result` of the
printable-safe codec; per the spec contract it "fails with DecodeError on
malformed input (wrong alphabet, bad padding)", modelled as `none`. -/
def b64decode : List Nat → Option (List Nat)
  | [] => some []
  | [a, b, 61, 61] =>
      match b64index a, b64index b with
      | some x, some y => some [x * 4 + y / 16]
      | _, _ => none
  | [a, b, c, 61] =>
      match b64index a, b64index b, b64index c with
      | some x, some y, some z => some [x * 4 + y / 16, y % 16 * 16 + z / 4]
      | _, _, _ => none
  | a :: b :: c :: d :: rest =>
      match b64index a, b64index b, b64index c, b64index d, b64decode rest with
      | some x, some y, some z, some w, some tl =>
          some ([x * 4 + y / 16, y % 16 * 16 + z / 4, z % 4 * 64 + w] ++ tl)
      | _, _, _, _, _ => none
  | _ => none

example : b64encode [0x41, 0x42, 0x43] = [0x51, 0x55, 0x4A, 0x44] := by decide

example : b64decode [0x51, 0x55, 0x4A, 0x44] = some [0x41, 0x42, 0x43] := by decide

example : b64decode [0x41, 0x51, 0x49, 0x3D] = some [1, 2] := by decide

example : b64decode [0x41] = none := by decide

/-- Embedding of `process_incoming` (source lines 131-143): decode the
completed frame, on success add the decoded length to the received-bytes
counter `rxb` and hand the binary data to `owner.inbound` (the delivered
payload is returned as `some`); on a decode failure the error is caught,
logged, and nothing is delivered (`none`). -/
def process_incoming (rxb : Nat) (data : List Nat) : Nat × Option (List Nat) :=
  match b64decode data with
  | some binary_data => (rxb + binary_data.length, some binary_data)
  | none => (rxb, none)

/-- One observable event of the `read_loop` polling loop: either a byte is
available and read, or no byte is waiting and the loop evaluates the
staleness clock with `elapsed_ms` milliseconds since the last read. -/
inductive LoopEvent where
  | byte (b : Nat)
  | idle (elapsed_ms : Nat)

/-- One iteration of `read_loop` (source lines 173-203): a `byte` event runs
the deframer step and, when a frame completes, `process_incoming`; an `idle`
event resets buffer and flags when the buffer is non-empty and the elapsed
time exceeds the timeout (source lines 197-203).  Returns the new
deframer-state/`rxb` pair and the payloads delivered to the owner. -/
def loopStep (s : DeframerState × Nat) (ev : LoopEvent) :
    (DeframerState × Nat) × List (List Nat) :=
  match ev with
  | .byte b =>
      let p := readStep s.1 b
      match p.2 with
      | some frame =>
          let q := process_incoming s.2 frame
          ((p.1, q.1), q.2.toList)
      | none => ((p.1, s.2), [])
  | .idle elapsed_ms =>
      if 0 < s.1.data_buffer.length ∧ timeout_ms < elapsed_ms then
        ((⟨false, false, []⟩, s.2), [])
      else (s, [])

/-- Iterated `loopStep`, collecting all delivered payloads in order. -/
def loopRun (s : DeframerState × Nat) (evs : List LoopEvent) :
    (DeframerState × Nat) × List (List Nat) :=
  match evs with
  | [] => (s, [])
  | e :: rest =>
      let p := loopStep s e
      let q := loopRun p.1 rest
      (q.1, p.2 ++ q.2)

/-- Embedding of `process_outgoing` (source lines 145-164).  The serial
channel is external; `written` models the return value of
`self.serial.write(framed_data)`.  Result fields, in order: the `online`
flag after the call, the `txb` counter after the call, `some bytes` when a
channel write of `bytes` was performed (`none` when no write happened), and
whether an exception was raised to the caller (the `except` block logs and
re-raises, so a raised `IOError` propagates). -/
def process_outgoing (online : Bool) (txb : Nat) (data : List Nat) (written : Nat) :
    Bool × Nat × Option (List Nat) × Bool :=
  if online = true then
    if written ≠ ([HDLC.FLAG] ++ HDLC.escape (b64encode data) ++ [HDLC.FLAG]).length then
      (online, txb + data.length,
        some ([HDLC.FLAG] ++ HDLC.escape (b64encode data) ++ [HDLC.FLAG]), true)
    else
      (online, txb + data.length,
        some ([HDLC.FLAG] ++ HDLC.escape (b64encode data) ++ [HDLC.FLAG]), false)
  else (online, txb, none, false)

example : process_outgoing true 0 [0x41, 0x42, 0x43] 6 =
    (true, 3, some [0x7E, 0x51, 0x55, 0x4A, 0x44, 0x7E], false) := by decide

example : process_outgoing false 7 [0x41] 0 = (false, 7, none, false) := by decide

example : (loopRun (initState, 0) [LoopEvent.byte 0x7E, LoopEvent.byte 0x7E]).2 = [[]] := by
  decide

/-- A single deframer step never grows the buffer past the MTU: the append
branch is guarded by `len(data_buffer) < self.HW_MTU`. -/
theorem readStep_length_le (s : DeframerState) (b : Nat)
    (h : s.data_buffer.length ≤ HW_MTU) :
    (readStep s b).1.data_buffer.length ≤ HW_MTU := by
  unfold readStep
  split_ifs with h1 h2 h3 h4 h5
  · simpa using h
  · simp
  · simpa using h
  · simp
    omega
  · simp
    omega
  · exact h

/-- Running the deframer preserves the MTU bound on the buffer. -/
theorem readRun_length_le (input : List Nat) (s : DeframerState)
    (h : s.data_buffer.length ≤ HW_MTU) :
    (readRun s input).1.data_buffer.length ≤ HW_MTU := by
  induction input generalizing s with
  | nil => simpa [readRun] using h
  | cons b rest ih =>
      simp only [readRun]
      exact ih _ (readStep_length_le s b h)

/-- A frame emitted by a deframer step is exactly the buffer at that step. -/
theorem readStep_emit_eq (s : DeframerState) (b : Nat) (f : List Nat)
    (h : (readStep s b).2 = some f) : f = s.data_buffer := by
  unfold readStep at h
  split_ifs at h
  all_goals simp_all

/-- Every frame emitted during a run from a state whose buffer respects the
MTU bound has length at most the MTU. -/
theorem readRun_emit_le (input : List Nat) (s : DeframerState)
    (h : s.data_buffer.length ≤ HW_MTU) :
    ∀ f ∈ (readRun s input).2, f.length ≤ HW_MTU := by
  induction input generalizing s with
  | nil => simp [readRun]
  | cons b rest ih =>
      intro f hf
      simp only [readRun, List.mem_append] at hf
      rcases hf with hf | hf
      · cases hp : (readStep s b).2 with
        | none => simp [hp] at hf
        | some g =>
            simp only [hp, Option.toList_some, List.mem_singleton] at hf
            rw [hf, readStep_emit_eq s b g hp]
            exact h
      · exact ih _ (readStep_length_le s b h) f hf

/-- Splitting a deframer run over an append of inputs. -/
theorem readRun_append (s : DeframerState) (xs ys : List Nat) :
    readRun s (xs ++ ys) =
      ((readRun (readRun s xs).1 ys).1,
        (readRun s xs).2 ++ (readRun (readRun s xs).1 ys).2) := by
  induction xs generalizing s with
  | nil => simp [readRun]
  | cons b rest ih => simp [readRun, ih, List.append_assoc]

/-- Unfolding `HDLC.escape` one input byte at a time. -/
theorem escape_cons (b : Nat) (rest : List Nat) :
    HDLC.escape (b :: rest) =
      (if b = HDLC.ESC then [HDLC.ESC, HDLC.ESC ^^^ HDLC.ESC_MASK]
       else if b = HDLC.FLAG then [HDLC.ESC, HDLC.FLAG ^^^ HDLC.ESC_MASK]
       else [b]) ++ HDLC.escape rest := by
  by_cases h1 : b = HDLC.ESC
  · subst h1
    simp [HDLC.escape, HDLC.replaceByte, HDLC.ESC, HDLC.FLAG, HDLC.ESC_MASK]
  · by_cases h2 : b = HDLC.FLAG
    · subst h2
      simp [HDLC.escape, HDLC.replaceByte, HDLC.ESC, HDLC.FLAG, HDLC.ESC_MASK]
    · simp [HDLC.escape, HDLC.replaceByte, h1, h2]

/-- Feeding the escaped form of a byte sequence into an in-frame deframer
with enough buffer room appends exactly that sequence, emits no frame, and
ends in-frame with the escape flag clear. -/
theorem readRun_escape (y : List Nat) (buf : List Nat)
    (h : buf.length + y.length ≤ HW_MTU) :
    readRun ⟨true, false, buf⟩ (HDLC.escape y) =
      (⟨true, false, buf ++ y⟩, []) := by
  induction y generalizing buf with
  | nil => simp [HDLC.escape, HDLC.replaceByte, readRun]
  | cons b rest ih =>
      have hlt : buf.length < HW_MTU := by
        simp only [List.length_cons] at h
        omega
      rw [escape_cons, readRun_append]
      have hb : readRun ⟨true, false, buf⟩
          (if b = HDLC.ESC then [HDLC.ESC, HDLC.ESC ^^^ HDLC.ESC_MASK]
           else if b = HDLC.FLAG then [HDLC.ESC, HDLC.FLAG ^^^ HDLC.ESC_MASK]
           else [b]) = (⟨true, false, buf ++ [b]⟩, []) := by
        by_cases h1 : b = HDLC.ESC
        · subst h1
          simp [readRun, readStep, unmaskByte, hlt, HDLC.ESC, HDLC.FLAG, HDLC.ESC_MASK]
        · by_cases h2 : b = HDLC.FLAG
          · subst h2
            simp [readRun, readStep, unmaskByte, hlt, HDLC.ESC, HDLC.FLAG, HDLC.ESC_MASK]
          · simp [readRun, readStep, h1, h2, hlt]
      rw [hb]
      have hrest : (buf ++ [b]).length + rest.length ≤ HW_MTU := by
        simp only [List.length_append, List.length_cons, List.length_nil] at h ⊢
        omega
      simp [ih (buf ++ [b]) hrest]

/-- Feeding one whole delimited, escaped frame from an idle state with a
clear escape flag emits exactly the unescaped payload once, and ends idle
with the payload still in the (uncleared) buffer. -/
theorem readRun_frame (y b0 : List Nat) (hy : y.length ≤ HW_MTU) :
    readRun ⟨false, false, b0⟩ (HDLC.FLAG :: (HDLC.escape y ++ [HDLC.FLAG])) =
      (⟨false, false, y⟩, [y]) := by
  have h1 : readStep ⟨false, false, b0⟩ HDLC.FLAG = (⟨true, false, []⟩, none) := by
    simp [readStep]
  simp only [readRun, h1, Option.toList_none, List.nil_append]
  rw [readRun_append, readRun_escape y [] (by simpa using hy)]
  simp [readRun, readStep]

/-- Unfolding one iteration of the read loop. -/
theorem loopRun_cons (s : DeframerState × Nat) (e : LoopEvent) (rest : List LoopEvent) :
    loopRun s (e :: rest) =
      ((loopRun (loopStep s e).1 rest).1,
        (loopStep s e).2 ++ (loopRun (loopStep s e).1 rest).2) := rfl

/-- The read loop on a stretch of byte events: the deframer state evolves as
in `readRun`, and a payload is delivered exactly for each emitted frame
whose decode succeeds, in order. -/
theorem loopRun_bytes (bytes : List Nat) (s : DeframerState) (rxb : Nat) :
    (loopRun (s, rxb) (bytes.map LoopEvent.byte)).1.1 = (readRun s bytes).1 ∧
    (loopRun (s, rxb) (bytes.map LoopEvent.byte)).2 =
      (readRun s bytes).2.filterMap b64decode := by
  induction bytes generalizing s rxb with
  | nil => simp [loopRun, readRun]
  | cons b rest ih =>
      cases hp : (readStep s b).2 with
      | none =>
          have h1 := (ih (readStep s b).1 rxb).1
          have h2 := (ih (readStep s b).1 rxb).2
          simp [loopRun, readRun, loopStep, hp, h1, h2]
      | some frame =>
          cases hd : b64decode frame with
          | none =>
              have h1 := (ih (readStep s b).1 rxb).1
              have h2 := (ih (readStep s b).1 rxb).2
              simp [loopRun, readRun, loopStep, process_incoming, hp, hd, h1, h2]
          | some bin =>
              have h1 := (ih (readStep s b).1 (rxb + bin.length)).1
              have h2 := (ih (readStep s b).1 (rxb + bin.length)).2
              simp [loopRun, readRun, loopStep, process_incoming, hp, hd, h1, h2]

/-- Claim C1 (amended): in `InFrame`, the delimiter closes the current frame,
emitting the buffer, and transitions to `Idle`; it does not itself open the
next frame.  Bytes arriving after a closing delimiter and before a further
delimiter are discarded, and the next delimiter opens a fresh frame with a
cleared buffer. -/
theorem claim1_theorem (s : DeframerState) (b : Nat) :
    (s.in_frame = true →
      readStep s HDLC.FLAG = ({ s with in_frame := false }, some s.data_buffer)) ∧
    (s.in_frame = false → b ≠ HDLC.FLAG → readStep s b = (s, none)) ∧
    (s.in_frame = false →
      readStep s HDLC.FLAG = ({ s with in_frame := true, data_buffer := [] }, none)) := by
  refine ⟨fun h => ?_, fun h hb => ?_, fun h => ?_⟩
  · simp [readStep, h]
  · simp [readStep, h, hb]
  · simp [readStep, h]

/-- Witness for C1 at a concrete state: a non-delimiter byte received while
idle is discarded. -/
theorem claim1_witness :
    readStep ⟨false, false, [0x41]⟩ 0x42 = (⟨false, false, [0x41]⟩, none) :=
  (claim1_theorem ⟨false, false, [0x41]⟩ 0x42).2.1 rfl (by decide)

/-- Claim C1 counterexample: after `0x7E 0x41 0x7E`, the byte `0x42` is
discarded rather than accumulated into a new frame, and the final `0x7E`
opens an empty frame; the run never yields a frame containing `0x42`. -/
theorem claim1_counterexample :
    readRun initState [0x7E, 0x41, 0x7E, 0x42] = (⟨false, false, [0x41]⟩, [[0x41]]) ∧
    readRun initState [0x7E, 0x41, 0x7E, 0x42, 0x7E] = (⟨true, false, []⟩, [[0x41]]) ∧
    [0x42] ∉ (readRun initState [0x7E, 0x41, 0x7E, 0x42, 0x7E]).2 := by decide

/-- Claim C2 (amended): in the `Escaped` state, any byte other than the raw
delimiter `0x7E` and the raw escape `0x7D`, received while the buffer is
below the MTU, is unmasked (`0x5E` restores `0x7E`, `0x5D` restores `0x7D`),
appended to the buffer, and the deframer returns to `InFrame`. -/
theorem claim2_theorem (s : DeframerState) (b : Nat)
    (hin : s.in_frame = true) (hesc : s.escape = true)
    (hb1 : b ≠ HDLC.FLAG) (hb2 : b ≠ HDLC.ESC)
    (hlen : s.data_buffer.length < HW_MTU) :
    readStep s b =
      ({ s with data_buffer := s.data_buffer ++ [unmaskByte b], escape := false }, none) ∧
    unmaskByte (HDLC.FLAG ^^^ HDLC.ESC_MASK) = HDLC.FLAG ∧
    unmaskByte (HDLC.ESC ^^^ HDLC.ESC_MASK) = HDLC.ESC := by
  refine ⟨?_, by decide, by decide⟩
  simp [readStep, hin, hesc, hb1, hb2, hlen]

/-- Witness for C2 at a concrete state: `0x5E` after an escape octet is
restored to `0x7E` and appended. -/
theorem claim2_witness :
    readStep ⟨true, true, []⟩ 0x5E = (⟨true, false, [0x7E]⟩, none) := by
  have h := (claim2_theorem ⟨true, true, []⟩ 0x5E rfl rfl (by decide) (by decide)
    (by decide)).1
  simpa [unmaskByte, HDLC.FLAG, HDLC.ESC, HDLC.ESC_MASK] using h

/-- Claim C2 counterexample: a raw `0x7E` received in the `Escaped` state is
not unmasked and appended; it closes the frame (with the escape flag left
set), and a raw `0x7D` re-arms the escape without appending anything. -/
theorem claim2_counterexample :
    readStep ⟨true, true, [0x41]⟩ 0x7E ≠ (⟨true, false, [0x41, 0x7E]⟩, none) ∧
    readStep ⟨true, true, [0x41]⟩ 0x7E = (⟨false, true, [0x41]⟩, some [0x41]) ∧
    readStep ⟨true, true, [0x41]⟩ 0x7D = (⟨true, true, [0x41]⟩, none) := by decide

/-- Claim C3: for every input stream fed from the initial state, the partial
frame buffer never exceeds `HW_MTU` (700) bytes; a non-delimiter byte
arriving while the buffer is at the bound is discarded and parsing stays
in-frame, and the delimiter still terminates the (truncated) frame. -/
theorem claim3_theorem (input : List Nat) (s : DeframerState) (b : Nat) :
    (readRun initState input).1.data_buffer.length ≤ HW_MTU ∧
    (s.in_frame = true → s.data_buffer.length = HW_MTU → b ≠ HDLC.FLAG →
      readStep s b = (s, none)) ∧
    (s.in_frame = true →
      readStep s HDLC.FLAG = ({ s with in_frame := false }, some s.data_buffer)) := by
  refine ⟨readRun_length_le input initState (by simp [initState]),
    fun h1 h2 hb => ?_, fun h => ?_⟩
  · simp [readStep, h1, h2, hb]
  · simp [readStep, h]

/-- Witness for C3 at a concrete full buffer: the byte `0x42` is discarded
and the state is unchanged. -/
theorem claim3_witness :
    readStep ⟨true, false, List.replicate 700 0x41⟩ 0x42 =
      (⟨true, false, List.replicate 700 0x41⟩, none) :=
  (claim3_theorem [] ⟨true, false, List.replicate 700 0x41⟩ 0x42).2.1 rfl
    (by simp only [List.length_replicate, HW_MTU]) (by decide)

/-- Claim C4 (amended): for every byte sequence `y` of length at most
`HW_MTU`, feeding the delimiter, then `escape(y)` octet by octet, then the
delimiter from the initial state yields exactly one completed frame whose
incrementally unescaped buffer equals `y`. -/
theorem claim4_theorem (y : List Nat) (hy : y.length ≤ HW_MTU) :
    readRun initState ([HDLC.FLAG] ++ HDLC.escape y ++ [HDLC.FLAG]) =
      (⟨false, false, y⟩, [y]) := by
  have h := readRun_frame y [] hy
  simpa [initState, List.append_assoc] using h

/-- Witness for C4 at a concrete payload. -/
theorem claim4_witness :
    ([0x41, 0x42, 0x43] : List Nat).length ≤ HW_MTU ∧
    readRun initState ([HDLC.FLAG] ++ HDLC.escape [0x41, 0x42, 0x43] ++ [HDLC.FLAG]) =
      (⟨false, false, [0x41, 0x42, 0x43]⟩, [[0x41, 0x42, 0x43]]) :=
  ⟨by decide, claim4_theorem [0x41, 0x42, 0x43] (by decide)⟩

/-- Claim C4 counterexample: a 701-byte payload exceeds `HW_MTU`, so the
single emitted frame is truncated and the run does not yield the payload. -/
theorem claim4_counterexample :
    (readRun initState
        ([HDLC.FLAG] ++ HDLC.escape (List.replicate 701 0x41) ++ [HDLC.FLAG])).2 ≠
      [List.replicate 701 0x41] := by
  intro hc
  have hmem : List.replicate 701 0x41 ∈
      (readRun initState
        ([HDLC.FLAG] ++ HDLC.escape (List.replicate 701 0x41) ++ [HDLC.FLAG])).2 := by
    rw [hc]
    exact List.mem_singleton_self _
  have hle := readRun_emit_le
    ([HDLC.FLAG] ++ HDLC.escape (List.replicate 701 0x41) ++ [HDLC.FLAG]) initState
    (by simp [initState]) (List.replicate 701 0x41) hmem
  simp only [List.length_replicate, HW_MTU] at hle
  omega

/-- Claim C5 (amended): when `InFrame` and the delimiter arrives, the buffer
is always passed to frame processing, with no non-emptiness check; the
delivered payload is exactly the successful decode of the buffer, and in
particular an empty buffer decodes to the empty payload, which is delivered
to the router. -/
theorem claim5_theorem (s : DeframerState) (rxb : Nat) (hin : s.in_frame = true) :
    (loopStep (s, rxb) (LoopEvent.byte HDLC.FLAG)).2 = (b64decode s.data_buffer).toList ∧
    (s.data_buffer = [] → (loopStep (s, rxb) (LoopEvent.byte HDLC.FLAG)).2 = [[]]) := by
  have hstep : readStep s HDLC.FLAG = ({ s with in_frame := false }, some s.data_buffer) := by
    simp [readStep, hin]
  constructor
  · simp only [loopStep, hstep]
    cases hd : b64decode s.data_buffer with
    | none => simp [process_incoming, hd]
    | some bin => simp [process_incoming, hd]
  · intro he
    simp only [loopStep, hstep, he]
    simp [process_incoming, b64decode]

/-- Witness for C5 at a concrete in-frame state with an empty buffer: the
empty payload is delivered. -/
theorem claim5_witness :
    (loopStep ((⟨true, false, []⟩ : DeframerState), 0) (LoopEvent.byte HDLC.FLAG)).2 = [[]] :=
  (claim5_theorem ⟨true, false, []⟩ 0 rfl).2 rfl

/-- Claim C5 counterexample: two consecutive delimiters from the initial
state produce a delivered frame (the empty payload), not no delivery. -/
theorem claim5_counterexample :
    (loopRun (initState, 0) [LoopEvent.byte 0x7E, LoopEvent.byte 0x7E]).2 = [[]] ∧
    (loopRun (initState, 0) [LoopEvent.byte 0x7E, LoopEvent.byte 0x7E]).2 ≠ [] := by decide

/-- Claim C6: mid-frame with a non-empty buffer, an idle poll after more
than the configured timeout clears the buffer and resets `in_frame` and the
escape flag; a subsequent complete delimited frame with decodable payload is
then the only delivery — the earlier partial data is never delivered. -/
theorem claim6_theorem (esc : Bool) (buf y p : List Nat) (rxb elapsed : Nat)
    (hbuf : buf ≠ []) (helapsed : timeout_ms < elapsed)
    (hy : y.length ≤ HW_MTU) (hdec : b64decode y = some p) :
    loopStep ((⟨true, esc, buf⟩ : DeframerState), rxb) (LoopEvent.idle elapsed) =
      (((⟨false, false, []⟩ : DeframerState), rxb), []) ∧
    (loopRun ((⟨true, esc, buf⟩ : DeframerState), rxb)
        (LoopEvent.idle elapsed ::
          (HDLC.FLAG :: (HDLC.escape y ++ [HDLC.FLAG])).map LoopEvent.byte)).2 = [p] ∧
    (loopRun ((⟨true, esc, buf⟩ : DeframerState), rxb)
        (LoopEvent.idle elapsed ::
          (HDLC.FLAG :: (HDLC.escape y ++ [HDLC.FLAG])).map LoopEvent.byte)).1.1 =
      ⟨false, false, y⟩ := by
  have hidle : loopStep ((⟨true, esc, buf⟩ : DeframerState), rxb) (LoopEvent.idle elapsed) =
      (((⟨false, false, []⟩ : DeframerState), rxb), []) := by
    simp [loopStep, List.length_pos.mpr hbuf, helapsed]
  have hfr := readRun_frame y [] hy
  have hb1 := (loopRun_bytes (HDLC.FLAG :: (HDLC.escape y ++ [HDLC.FLAG]))
    ⟨false, false, []⟩ rxb).1
  have hb2 := (loopRun_bytes (HDLC.FLAG :: (HDLC.escape y ++ [HDLC.FLAG]))
    ⟨false, false, []⟩ rxb).2
  rw [hfr] at hb1 hb2
  have hb2a : (loopRun ((⟨false, false, []⟩ : DeframerState), rxb)
      ((HDLC.FLAG :: (HDLC.escape y ++ [HDLC.FLAG])).map LoopEvent.byte)).2 = [p] := by
    rw [hb2]
    simp [hdec]
  have hb1a : (loopRun ((⟨false, false, []⟩ : DeframerState), rxb)
      ((HDLC.FLAG :: (HDLC.escape y ++ [HDLC.FLAG])).map LoopEvent.byte)).1.1 =
      ⟨false, false, y⟩ := by
    rw [hb1]
  refine ⟨hidle, ?_, ?_⟩
  · rw [loopRun_cons, hidle]
    simpa using hb2a
  · rw [loopRun_cons, hidle]
    simpa using hb1a

/-- Witness for C6: three stale buffered bytes are discarded on timeout and
the following frame decodes to `[1, 2]`, the only delivery. -/
theorem claim6_witness :
    (loopRun ((⟨true, false, [0x41, 0x42, 0x43]⟩ : DeframerState), 0)
        (LoopEvent.idle 200 ::
          (HDLC.FLAG :: (HDLC.escape [0x41, 0x51, 0x49, 0x3D] ++ [HDLC.FLAG])).map
            LoopEvent.byte)).2 = [[1, 2]] :=
  (claim6_theorem false [0x41, 0x42, 0x43] [0x41, 0x51, 0x49, 0x3D] [1, 2] 0 200
      (by decide) (by decide) (by decide) (by decide)).2.1

/-- Claim C7: the outgoing path writes exactly
`FLAG ++ escape(b64encode(payload)) ++ FLAG` to the channel, and only while
the link is online; when offline no channel write is performed. -/
theorem claim7_theorem (online : Bool) (txb written : Nat) (data : List Nat) :
    (online = true →
      (process_outgoing online txb data written).2.2.1 =
        some ([HDLC.FLAG] ++ HDLC.escape (b64encode data) ++ [HDLC.FLAG])) ∧
    (online = false → (process_outgoing online txb data written).2.2.1 = none) := by
  constructor
  · intro h
    subst h
    simp only [process_outgoing]
    split_ifs with h1 h2 <;> simp_all
  · intro h
    subst h
    simp [process_outgoing]

/-- Witness for C7 at a concrete payload, online and offline. -/
theorem claim7_witness :
    (process_outgoing true 0 [0x41, 0x42, 0x43] 6).2.2.1 =
      some ([HDLC.FLAG] ++ HDLC.escape (b64encode [0x41, 0x42, 0x43]) ++ [HDLC.FLAG]) ∧
    (process_outgoing false 0 [0x41, 0x42, 0x43] 6).2.2.1 = none :=
  ⟨(claim7_theorem true 0 6 [0x41, 0x42, 0x43]).1 rfl,
    (claim7_theorem false 0 6 [0x41, 0x42, 0x43]).2 rfl⟩

/-- Claim C8: when online and the channel write returns fewer (or other
than) the framed length, an error is raised to the caller of `send`, and the
online flag is left unchanged by the call itself. -/
theorem claim8_theorem (txb written : Nat) (data : List Nat)
    (hshort : written ≠ ([HDLC.FLAG] ++ HDLC.escape (b64encode data) ++ [HDLC.FLAG]).length) :
    (process_outgoing true txb data written).2.2.2 = true ∧
    (process_outgoing true txb data written).1 = true := by
  have h : process_outgoing true txb data written =
      (true, txb + data.length,
        some ([HDLC.FLAG] ++ HDLC.escape (b64encode data) ++ [HDLC.FLAG]), true) := by
    unfold process_outgoing
    rw [if_pos rfl, if_pos hshort]
  rw [h]
  exact ⟨rfl, rfl⟩

/-- Witness for C8: a zero-byte write of a two-byte frame raises. -/
theorem claim8_witness :
    (process_outgoing true 0 [] 0).2.2.2 = true ∧
    (process_outgoing true 0 [] 0).1 = true :=
  claim8_theorem 0 0 [] (by decide)

/-- Claim C9: a completed frame whose payload fails to decode is dropped
without delivery and without any exception escaping; the loop continues and
a following well-formed frame is still delivered. -/
theorem claim9_theorem (bad y p : List Nat) (rxb : Nat)
    (hbad : b64decode bad = none) (hlb : bad.length ≤ HW_MTU)
    (hy : y.length ≤ HW_MTU) (hdec : b64decode y = some p) :
    (loopRun (initState, rxb)
        (((HDLC.FLAG :: (HDLC.escape bad ++ [HDLC.FLAG])) ++
          (HDLC.FLAG :: (HDLC.escape y ++ [HDLC.FLAG]))).map LoopEvent.byte)).2 = [p] := by
  have h1 : readRun initState (HDLC.FLAG :: (HDLC.escape bad ++ [HDLC.FLAG])) =
      (⟨false, false, bad⟩, [bad]) := readRun_frame bad [] hlb
  have h2 := readRun_frame y bad hy
  have hrun : readRun initState ((HDLC.FLAG :: (HDLC.escape bad ++ [HDLC.FLAG])) ++
      (HDLC.FLAG :: (HDLC.escape y ++ [HDLC.FLAG]))) =
      (⟨false, false, y⟩, [bad, y]) := by
    rw [readRun_append, h1]
    dsimp only
    rw [h2]
    rfl
  have hb2 := (loopRun_bytes ((HDLC.FLAG :: (HDLC.escape bad ++ [HDLC.FLAG])) ++
    (HDLC.FLAG :: (HDLC.escape y ++ [HDLC.FLAG]))) initState rxb).2
  rw [hrun] at hb2
  simpa [hbad, hdec] using hb2

/-- Witness for C9: the one-character frame `A` fails to decode and is
dropped; the following frame decodes to `[1, 2]` and is delivered. -/
theorem claim9_witness :
    (loopRun (initState, 0)
        (((HDLC.FLAG :: (HDLC.escape [0x41] ++ [HDLC.FLAG])) ++
          (HDLC.FLAG :: (HDLC.escape [0x41, 0x51, 0x49, 0x3D] ++ [HDLC.FLAG]))).map
          LoopEvent.byte)).2 = [[1, 2]] :=
  claim9_theorem [0x41] [0x41, 0x51, 0x49, 0x3D] [1, 2] 0 (by decide) (by decide)
    (by decide) (by decide)

/-- Claim C10: while online, `process_outgoing` adds the raw payload length
to `txb` before the short-write check, so on a short write the counter has
already been advanced by the full payload length even though an error is
raised; for a non-empty payload the counter is therefore changed on the
error path. -/
theorem claim10_theorem (txb written : Nat) (data : List Nat)
    (hshort : written ≠ ([HDLC.FLAG] ++ HDLC.escape (b64encode data) ++ [HDLC.FLAG]).length) :
    (process_outgoing true txb data written).2.1 = txb + data.length ∧
    (process_outgoing true txb data written).2.2.2 = true ∧
    (data ≠ [] → (process_outgoing true txb data written).2.1 ≠ txb) := by
  have h : process_outgoing true txb data written =
      (true, txb + data.length,
        some ([HDLC.FLAG] ++ HDLC.escape (b64encode data) ++ [HDLC.FLAG]), true) := by
    unfold process_outgoing
    rw [if_pos rfl, if_pos hshort]
  rw [h]
  refine ⟨rfl, rfl, fun hd => ?_⟩
  have hl := List.length_pos.mpr hd
  simp only [ne_eq]
  omega

/-- Witness for C10: a zero-byte write of the frame for payload `A`
raises, yet the counter has advanced by the payload length. -/
theorem claim10_witness :
    (process_outgoing true 5 [0x41] 0).2.1 = 5 + ([0x41] : List Nat).length ∧
    (process_outgoing true 5 [0x41] 0).2.2.2 = true ∧
    (([0x41] : List Nat) ≠ [] → (process_outgoing true 5 [0x41] 0).2.1 ≠ 5) :=
  claim10_theorem 5 0 [0x41] (by decide)
